import Mathlib

/-!
Verification of the pagination cursor and selection logic of the
`CustomTable` React component (frontend/src/components/CustomTable.tsx).

The state of the component and its operations (`reload`, `_pageChanged`,
`_requestRowsPerPage`, `_resetToFirstPage`, `handleClick`,
`handleSelectAllClick`) are shallowly embedded as pure functions.
Asynchrony is modelled by passing the fetch collaborator as a function
`LoadRequest → Except Unit String` (an `Except.error` models a rejected
promise); the `_isMounted` liveness flag is modelled by two
booleans: `m0`, its value when the operation starts, and `m1`, its value
when the awaited fetch resolves (unmounting can only happen across the
single suspension point).  JavaScript array indexing `tokenList[i]` is
modelled by `List.getD i ""` (every in-repo call site indexes a visited
page, for which the token exists); JavaScript string truthiness
`if (tok)` is modelled by `tok ≠ ""`.
-/

namespace CustomTable

/-- `Number.MAX_SAFE_INTEGER`, the "unknown / unbounded" sentinel for
`maxPageIndex`. -/
def MAX_SAFE_INTEGER : Nat := 2 ^ 53 - 1

/-- A table row: `id` plus opaque cell contents (interface `Row`). -/
structure Row where
  id : String
  otherFields : List String
deriving Repr, DecidableEq

/-- The component state (interface `CustomTableState`). -/
structure CustomTableState where
  currentPage : Nat
  isBusy : Bool
  maxPageIndex : Nat
  pageSize : Nat
  tokenList : List String
deriving Repr, DecidableEq

/-- The state installed by the constructor. -/
def initialState : CustomTableState :=
  { currentPage := 0
    isBusy := false
    maxPageIndex := MAX_SAFE_INTEGER
    pageSize := 10
    tokenList := [""] }

/-- The request object handed to the fetch collaborator (`props.reload`). -/
structure LoadRequest where
  pageSize : Nat
  pageToken : String
deriving Repr, DecidableEq

/-- The optional `loadRequest` argument of `reload`: fields present in it
override the defaults built from the current state (`Object.assign`). -/
structure LoadRequestPatch where
  pageSize : Option Nat := none
  pageToken : Option String := none

/-- The fetch collaborator: resolves with the next page token, or rejects. -/
abbrev Fetch := LoadRequest → Except Unit String

/-- `Object.assign({pageSize: state.pageSize, pageToken:
tokenList[currentPage]}, loadRequest)` at the top of `reload`. -/
def mkRequest (s : CustomTableState) (p : LoadRequestPatch) : LoadRequest :=
  { pageSize := p.pageSize.getD s.pageSize
    pageToken := p.pageToken.getD (s.tokenList.getD s.currentPage "") }

/-- `setStateSafe`: apply a state update only while `_isMounted`. -/
def setStateSafe (mounted : Bool) (s : CustomTableState)
    (upd : CustomTableState → CustomTableState) : CustomTableState :=
  if mounted then upd s else s

/-- `reload`: builds the request, commits `{isBusy: true, pageSize}` via
`setStateSafe`, awaits the fetch, and in a `finally` block commits
`{isBusy: false}`.  Returns the new state, the fetch outcome (a rejected
fetch propagates out of `reload` after the `finally` block ran), and the
request that was presented to the collaborator. -/
def reload (m0 m1 : Bool) (s : CustomTableState) (p : LoadRequestPatch)
    (fetch : Fetch) : CustomTableState × Except Unit String × LoadRequest :=
  let request := mkRequest s p
  let s1 := setStateSafe m0 s
    (fun t => { t with isBusy := true, pageSize := request.pageSize })
  let res := fetch request
  let s2 := setStateSafe m1 s1 (fun t => { t with isBusy := false })
  (s2, res, request)

/-- The target page computed at the top of `_pageChanged`:
`currentPage + offset`, then `Math.max(0, ·)`, then
`Math.min(maxPageIndex, ·)`. -/
def clampTarget (s : CustomTableState) (offset : Int) : Nat :=
  (min (s.maxPageIndex : Int) (max 0 ((s.currentPage : Int) + offset))).toNat

/-- `_pageChanged(offset)`: clamp the target page, reload with the cached
token for it, then reconcile: a non-empty returned token is pushed onto
`tokenList` when the target is the frontier page (note: this `push`
mutates the array in place and is NOT guarded by `_isMounted`); an empty
token caps `maxPageIndex` at the target; finally `currentPage` and
`maxPageIndex` are committed via `setStateSafe`.  A rejected fetch
propagates, skipping the reconciliation. -/
def pageChanged (m0 m1 : Bool) (s : CustomTableState) (offset : Int)
    (fetch : Fetch) : CustomTableState × Except Unit Unit × LoadRequest :=
  let newCurrentPage := clampTarget s offset
  match reload m0 m1 s
      { pageToken := some (s.tokenList.getD newCurrentPage "") } fetch with
  | (s1, Except.error e, req) => (s1, Except.error e, req)
  | (s1, Except.ok newPageToken, req) =>
    let s2 := if newPageToken ≠ "" then
        (if newCurrentPage + 1 = s1.tokenList.length then
          { s1 with tokenList := s1.tokenList ++ [newPageToken] }
        else s1)
      else s1
    let maxPageIndex :=
      if newPageToken ≠ "" then s.maxPageIndex else newCurrentPage
    let s3 := setStateSafe m1 s2
      (fun t => { t with currentPage := newCurrentPage,
                         maxPageIndex := maxPageIndex })
    (s3, Except.ok (), req)

/-- `_resetToFirstPage(newPageToken)`: discard the token cache, keeping
the new first-page token when one was returned. -/
def resetToFirstPage (m1 : Bool) (s : CustomTableState)
    (newPageToken : String) : CustomTableState :=
  let maxPageIndex := if newPageToken ≠ "" then MAX_SAFE_INTEGER else 0
  let newTokenList := if newPageToken ≠ "" then ["", newPageToken] else [""]
  setStateSafe m1 s
    (fun t => { t with currentPage := 0,
                       maxPageIndex := maxPageIndex,
                       tokenList := newTokenList })

/-- `_requestRowsPerPage`: reload with the new page size and an empty
token, then `_resetToFirstPage` on the result.  A rejected fetch
propagates, skipping the reset. -/
def requestRowsPerPage (m0 m1 : Bool) (s : CustomTableState)
    (pageSize : Nat) (fetch : Fetch) :
    CustomTableState × Except Unit Unit × LoadRequest :=
  match reload m0 m1 s
      { pageSize := some pageSize, pageToken := some "" } fetch with
  | (s1, Except.error e, req) => (s1, Except.error e, req)
  | (s1, Except.ok tok, req) => (resetToFirstPage m1 s1 tok, Except.ok (), req)

/-- The splice-based toggle in the non-radio branch of `handleClick`:
`selectedIndex === -1 ? concat(id) : slice(0, i).concat(slice(i + 1))`
(the JavaScript `-1` absence sentinel is `none` here). -/
def spliceToggle (selectedIds : List String) (id : String) : List String :=
  match selectedIds.indexOf? id with
  | none => selectedIds ++ [id]
  | some i => selectedIds.take i ++ selectedIds.drop (i + 1)

/-- `handleClick(e, id)`: `none` models the early return when selection is
disabled; otherwise the value handed to `updateSelection`. -/
def handleClick (disableSelection useRadioButtons : Bool)
    (selectedIds : List String) (id : String) : Option (List String) :=
  if disableSelection then none
  else some (if useRadioButtons then [id] else spliceToggle selectedIds id)

/-- `handleSelectAllClick(event)`: `none` models the early return when
selection is disabled; otherwise the value handed to `updateSelection`.
The `useRadioButtons` prop is in scope but never consulted by the
source. -/
def handleSelectAllClick (disableSelection useRadioButtons checked : Bool)
    (rows : List Row) : Option (List String) :=
  if disableSelection then none
  else some (if checked then rows.map Row.id else [])

/-- `isSelected(id)`. -/
def isSelected (selectedIds : Option (List String)) (id : String) : Bool :=
  match selectedIds with
  | none => false
  | some l => l.contains id

/-- One completed user operation on the cursor, with the fetch outcome it
observed (the owner stays mounted in normal operation). -/
inductive Op where
  | goToPage : Int → Fetch → Op
  | changePageSize : Nat → Fetch → Op

/-- Apply one completed operation to the state. -/
def step (s : CustomTableState) : Op → CustomTableState
  | Op.goToPage off f => (pageChanged true true s off f).1
  | Op.changePageSize n f => (requestRowsPerPage true true s n f).1

/-- Apply a sequence of completed operations. -/
def runOps (s : CustomTableState) : List Op → CustomTableState
  | [] => s
  | op :: ops => runOps (step s op) ops

/-! ### Helper lemmas -/

theorem clampTarget_le (s : CustomTableState) (offset : Int) :
    clampTarget s offset ≤ s.maxPageIndex := by
  have h : (min (s.maxPageIndex : Int) (max 0 ((s.currentPage : Int) + offset)))
      ≤ (s.maxPageIndex : Int) := min_le_left _ _
  have := Int.toNat_le_toNat h
  simpa [clampTarget] using this

theorem clampTarget_of_le (s : CustomTableState) (offset : Int)
    (h0 : 0 ≤ (s.currentPage : Int) + offset)
    (h1 : (s.currentPage : Int) + offset ≤ (s.maxPageIndex : Int)) :
    (clampTarget s offset : Int) = (s.currentPage : Int) + offset := by
  rw [clampTarget, max_eq_right h0, min_eq_right h1, Int.toNat_of_nonneg h0]

theorem pageChanged_request (m0 m1 : Bool) (s : CustomTableState)
    (offset : Int) (fetch : Fetch) :
    (pageChanged m0 m1 s offset fetch).2.2 =
      { pageSize := s.pageSize,
        pageToken := s.tokenList.getD (clampTarget s offset) "" } := by
  simp only [pageChanged, reload, mkRequest, setStateSafe]
  cases fetch ({ pageSize := (none : Option Nat).getD s.pageSize,
                 pageToken :=
                   (some (s.tokenList.getD (clampTarget s offset) "")).getD
                     (s.tokenList.getD s.currentPage "") }) <;> simp

theorem spliceToggle_eq (selectedIds : List String) (id : String) :
    spliceToggle selectedIds id =
      (if id ∈ selectedIds then selectedIds.erase id
      else selectedIds ++ [id]) := by
  induction selectedIds with
  | nil => simp [spliceToggle]
  | cons a l ih =>
    by_cases hai : a = id
    · subst hai
      simp [spliceToggle, List.indexOf?_cons, List.erase_cons]
    · rcases hl : l.indexOf? id with _ | i
      · have hmem : id ∉ l := by
          intro hmem
          have hne : l.indexOf? id ≠ none := by
            intro hnone
            have := List.indexOf?_eq_none_iff.mp hnone id hmem
            simp at this
          exact hne hl
        simp [spliceToggle, List.indexOf?_cons, hai, hl, hmem,
          List.erase_cons, Ne.symm hai]
      · have hmem : id ∈ l := by
          by_contra hmem
          have : l.indexOf? id = none :=
            List.indexOf?_eq_none_iff.mpr (fun x hx => by
              simp only [beq_iff_eq]
              rintro rfl
              exact hmem hx)
          rw [this] at hl
          exact Option.noConfusion hl
        have hsplice : l.take i ++ l.drop (i + 1) = l.erase id := by
          have h2 := ih
          rw [if_pos hmem] at h2
          simp only [spliceToggle, hl] at h2
          exact h2
        simp [spliceToggle, List.indexOf?_cons, hai, hl, hmem,
          List.erase_cons, Ne.symm hai, hsplice]

theorem step_preserves (s : CustomTableState) (op : Op)
    (h1 : s.currentPage ≤ s.maxPageIndex)
    (h2 : s.tokenList.head? = some "") :
    (step s op).currentPage ≤ (step s op).maxPageIndex ∧
    (step s op).tokenList.head? = some "" := by
  have hne : s.tokenList ≠ [] := by
    intro h
    rw [h] at h2
    exact Option.noConfusion h2
  cases op with
  | goToPage off f =>
    simp only [step, pageChanged, reload, mkRequest, setStateSafe]
    cases f ({ pageSize := (none : Option Nat).getD s.pageSize,
               pageToken :=
                 (some (s.tokenList.getD (clampTarget s off) "")).getD
                   (s.tokenList.getD s.currentPage "") }) with
    | error e => exact ⟨h1, h2⟩
    | ok tok =>
      by_cases htok : tok = ""
      · simpa [htok] using h2
      · by_cases hlen : clampTarget s off + 1 = s.tokenList.length
        · refine ⟨by simp [htok, clampTarget_le], ?_⟩
          simp [htok, hlen, List.head?_append_of_ne_nil _ hne, h2]
        · refine ⟨by simp [htok, clampTarget_le],
            by simpa [htok, hlen] using h2⟩
  | changePageSize n f =>
    simp only [step, requestRowsPerPage, reload, mkRequest, setStateSafe,
      resetToFirstPage]
    cases f ({ pageSize := (some n).getD s.pageSize,
               pageToken := (some "").getD
                 (s.tokenList.getD s.currentPage "") }) with
    | error e => exact ⟨h1, h2⟩
    | ok tok =>
      by_cases htok : tok = "" <;> simp [htok]

theorem runOps_preserves (ops : List Op) (s : CustomTableState)
    (h1 : s.currentPage ≤ s.maxPageIndex)
    (h2 : s.tokenList.head? = some "") :
    (runOps s ops).currentPage ≤ (runOps s ops).maxPageIndex ∧
    (runOps s ops).tokenList.head? = some "" := by
  induction ops generalizing s with
  | nil => exact ⟨h1, h2⟩
  | cons op ops ih =>
    exact ih (step s op) (step_preserves s op h1 h2).1
      (step_preserves s op h1 h2).2

/-! ### Claim theorems -/

/-- C1: after the fetch of `_pageChanged` resolves with a non-empty
`nextPageToken`, the token is appended to `tokenList` exactly when the
clamped target is the frontier page (`target + 1 = tokenList.length`);
otherwise `tokenList` is unchanged.  Stated for every mountedness so it
covers re-navigation to any previously visited page. -/
theorem pageChanged_token_append (m0 m1 : Bool) (s : CustomTableState)
    (offset : Int) (tok : String) (htok : tok ≠ "") :
    ((pageChanged m0 m1 s offset (fun _ => Except.ok tok)).1).tokenList =
      (if clampTarget s offset + 1 = s.tokenList.length then
        s.tokenList ++ [tok]
      else s.tokenList) := by
  cases m0 <;> cases m1 <;>
    simp [pageChanged, reload, mkRequest, setStateSafe, htok] <;>
    split <;> simp

theorem pageChanged_token_append_witness :
    ((pageChanged true true initialState 0
        (fun _ => Except.ok "T1")).1).tokenList = ["", "T1"] := by
  have h := pageChanged_token_append true true initialState 0 "T1" (by decide)
  simpa [initialState, clampTarget] using h

/-- C2: when the fetch of `_pageChanged` rejects, the error propagates,
`isBusy` is reset to `false` by the `finally` block, and `currentPage`,
`tokenList` and `maxPageIndex` keep their pre-navigation values. -/
theorem pageChanged_fetch_error (s : CustomTableState) (offset : Int) :
    (pageChanged true true s offset (fun _ => Except.error ())).2.1
        = Except.error () ∧
    (pageChanged true true s offset (fun _ => Except.error ())).1.isBusy
        = false ∧
    (pageChanged true true s offset (fun _ => Except.error ())).1.currentPage
        = s.currentPage ∧
    (pageChanged true true s offset (fun _ => Except.error ())).1.tokenList
        = s.tokenList ∧
    (pageChanged true true s offset (fun _ => Except.error ())).1.maxPageIndex
        = s.maxPageIndex := by
  simp [pageChanged, reload, mkRequest, setStateSafe]

/-- C5: a completed `_requestRowsPerPage` with a successful fetch resets
`currentPage` to 0, installs the new page size, and replaces the whole
token cache: `["", tok]` with the unbounded `maxPageIndex` sentinel when
the fetch returned a non-empty token, `[""]` with `maxPageIndex = 0`
otherwise. -/
theorem requestRowsPerPage_resets (s : CustomTableState) (n : Nat)
    (tok : String) :
    (requestRowsPerPage true true s n (fun _ => Except.ok tok)).1.currentPage
        = 0 ∧
    (requestRowsPerPage true true s n (fun _ => Except.ok tok)).1.pageSize
        = n ∧
    (requestRowsPerPage true true s n (fun _ => Except.ok tok)).1.tokenList
        = (if tok = "" then [""] else ["", tok]) ∧
    (requestRowsPerPage true true s n
        (fun _ => Except.ok tok)).1.maxPageIndex
        = (if tok = "" then 0 else MAX_SAFE_INTEGER) := by
  by_cases h : tok = "" <;>
    simp [requestRowsPerPage, reload, mkRequest, setStateSafe,
      resetToFirstPage, h]

/-- C9: `reload` commits the requested `pageSize` before awaiting the
fetch and never rolls it back, so a `_requestRowsPerPage` whose fetch
rejects leaves `pageSize` at the new value while `currentPage`,
`tokenList` and `maxPageIndex` keep their old values, with the error
propagated and `isBusy` reset. -/
theorem requestRowsPerPage_error_keeps_pageSize (s : CustomTableState)
    (n : Nat) :
    (requestRowsPerPage true true s n (fun _ => Except.error ())).2.1
        = Except.error () ∧
    (requestRowsPerPage true true s n (fun _ => Except.error ())).1.pageSize
        = n ∧
    (requestRowsPerPage true true s n
        (fun _ => Except.error ())).1.currentPage = s.currentPage ∧
    (requestRowsPerPage true true s n (fun _ => Except.error ())).1.tokenList
        = s.tokenList ∧
    (requestRowsPerPage true true s n
        (fun _ => Except.error ())).1.maxPageIndex = s.maxPageIndex ∧
    (requestRowsPerPage true true s n (fun _ => Except.error ())).1.isBusy
        = false := by
  simp [requestRowsPerPage, reload, mkRequest, setStateSafe]

/-- C3: when the fetch of `_pageChanged` resolves with an empty
`nextPageToken` at the clamped target page `P`, afterwards
`maxPageIndex = P` and `currentPage = P`, and any subsequent forward
navigation (positive offset, any fetch outcome) leaves `currentPage`
at `P`. -/
theorem pageChanged_empty_token_caps (s : CustomTableState)
    (offset off2 : Int) (h2 : 0 < off2) (fetch2 : Fetch) :
    (pageChanged true true s offset (fun _ => Except.ok "")).1.maxPageIndex
        = clampTarget s offset ∧
    (pageChanged true true s offset (fun _ => Except.ok "")).1.currentPage
        = clampTarget s offset ∧
    (pageChanged true true
        (pageChanged true true s offset (fun _ => Except.ok "")).1
        off2 fetch2).1.currentPage = clampTarget s offset := by
  have hs' : (pageChanged true true s offset (fun _ => Except.ok "")).1 =
      ⟨clampTarget s offset, false, clampTarget s offset, s.pageSize,
        s.tokenList⟩ := by
    simp [pageChanged, reload, mkRequest, setStateSafe]
  refine ⟨by rw [hs'], by rw [hs'], ?_⟩
  rw [hs']
  have hclamp : clampTarget
      ⟨clampTarget s offset, false, clampTarget s offset, s.pageSize,
        s.tokenList⟩ off2 = clampTarget s offset := by
    show (min ((clampTarget s offset : Nat) : Int)
      (max 0 (((clampTarget s offset : Nat) : Int) + off2))).toNat
        = clampTarget s offset
    rw [max_eq_right (by positivity), min_eq_left (by omega)]
    simp
  simp only [pageChanged, reload, mkRequest, setStateSafe, hclamp]
  cases fetch2 ({ pageSize := (none : Option Nat).getD s.pageSize,
                  pageToken :=
                    (some (s.tokenList.getD (clampTarget s offset) "")).getD
                      (s.tokenList.getD (clampTarget s offset) "") }) <;>
    simp <;> split <;> simp

theorem pageChanged_empty_token_caps_witness :
    (0 : Int) < 1 ∧
    (pageChanged true true initialState 0
        (fun _ => Except.ok "")).1.maxPageIndex = 0 ∧
    (pageChanged true true initialState 0
        (fun _ => Except.ok "")).1.currentPage = 0 ∧
    (pageChanged true true
        (pageChanged true true initialState 0
          (fun _ => Except.ok "")).1
        1 (fun _ => Except.ok "")).1.currentPage = 0 := by
  have h := pageChanged_empty_token_caps initialState 0 1 (by decide)
    (fun _ => Except.ok "")
  have hc : clampTarget initialState 0 = 0 := by
    simp [clampTarget, initialState]
  refine ⟨by decide, ?_, ?_, ?_⟩
  · rw [h.1, hc]
  · rw [h.2.1, hc]
  · rw [h.2.2, hc]

/-- C4: `_pageChanged` computes its target page as
`currentPage + offset` clamped into `[0, maxPageIndex]` (exactly the
sum when it is in range, `0` when the sum is negative, `maxPageIndex`
when the sum exceeds it) and presents `tokenList[target]` together with
the current page size as the request to the fetch collaborator. -/
theorem pageChanged_target_and_request (m0 m1 : Bool)
    (s : CustomTableState) (offset : Int) (fetch : Fetch) :
    (pageChanged m0 m1 s offset fetch).2.2.pageToken
        = s.tokenList.getD (clampTarget s offset) "" ∧
    (pageChanged m0 m1 s offset fetch).2.2.pageSize = s.pageSize ∧
    clampTarget s offset ≤ s.maxPageIndex ∧
    (0 ≤ (s.currentPage : Int) + offset →
      (s.currentPage : Int) + offset ≤ (s.maxPageIndex : Int) →
      (clampTarget s offset : Int) = (s.currentPage : Int) + offset) ∧
    ((s.currentPage : Int) + offset < 0 → clampTarget s offset = 0) ∧
    ((s.maxPageIndex : Int) < (s.currentPage : Int) + offset →
      clampTarget s offset = s.maxPageIndex) := by
  refine ⟨?_, ?_, clampTarget_le s offset, clampTarget_of_le s offset,
    ?_, ?_⟩
  · rw [pageChanged_request]
  · rw [pageChanged_request]
  · intro hneg
    show (min ((s.maxPageIndex : Nat) : Int)
      (max 0 ((s.currentPage : Int) + offset))).toNat = 0
    rw [max_eq_left (le_of_lt hneg), min_eq_right (by positivity)]
    rfl
  · intro hbig
    show (min ((s.maxPageIndex : Nat) : Int)
      (max 0 ((s.currentPage : Int) + offset))).toNat = s.maxPageIndex
    rw [max_eq_right (by omega), min_eq_left (le_of_lt hbig)]
    simp

theorem pageChanged_target_and_request_witness :
    (pageChanged true true
        ⟨1, false, MAX_SAFE_INTEGER, 10, ["", "T1"]⟩ (-1)
        (fun _ => Except.ok "T2")).2.2.pageToken = "" := by
  have h := pageChanged_target_and_request true true
    ⟨1, false, MAX_SAFE_INTEGER, 10, ["", "T1"]⟩ (-1)
    (fun _ => Except.ok "T2")
  rw [h.1]
  have hc : clampTarget
      ⟨1, false, MAX_SAFE_INTEGER, 10, ["", "T1"]⟩ (-1) = 0 := by
    simp [clampTarget, MAX_SAFE_INTEGER]
  rw [hc]
  rfl

/-- C7 counterexample: the in-place `tokenList.push` of `_pageChanged`
is not guarded by the `_isMounted` liveness check, so unmounting while
the fetch is pending does NOT leave `tokenList` unmodified: from the
initial state, a fetch resolving with token "T1" after unmount still
grows `tokenList`. -/
theorem pageChanged_unmounted_mutates_tokenList :
    (pageChanged true false initialState 0
        (fun _ => Except.ok "T1")).1.tokenList
      ≠ initialState.tokenList := by
  simp [pageChanged, reload, mkRequest, setStateSafe, initialState,
    clampTarget]

/-- C7 amended: if the owner is unmounted while the fetch is pending,
the reconciliation step leaves `currentPage`, `maxPageIndex`,
`pageSize` and `isBusy` untouched (the `setStateSafe` commits,
including the `finally` reset of `isBusy`, are all skipped, so `isBusy`
remains `true`), but `tokenList` may still gain one element through the
unguarded in-place push when the fetch resolves with a non-empty token
at the frontier page. -/
theorem pageChanged_unmounted_state (s : CustomTableState) (offset : Int)
    (fetch : Fetch) :
    (pageChanged true false s offset fetch).1.currentPage
        = s.currentPage ∧
    (pageChanged true false s offset fetch).1.maxPageIndex
        = s.maxPageIndex ∧
    (pageChanged true false s offset fetch).1.pageSize = s.pageSize ∧
    (pageChanged true false s offset fetch).1.isBusy = true ∧
    ((pageChanged true false s offset fetch).1.tokenList = s.tokenList ∨
      ∃ tok, tok ≠ "" ∧
        (pageChanged true false s offset fetch).1.tokenList
          = s.tokenList ++ [tok]) := by
  simp only [pageChanged, reload, mkRequest, setStateSafe]
  cases hres : fetch ({ pageSize := (none : Option Nat).getD s.pageSize,
                        pageToken :=
                          (some (s.tokenList.getD
                            (clampTarget s offset) "")).getD
                              (s.tokenList.getD s.currentPage "") }) with
  | error e => simp
  | ok tok =>
    by_cases htok : tok = ""
    · simp [htok]
    · by_cases hlen : clampTarget s offset + 1 = s.tokenList.length
      · simp only [htok, hlen]
        simp [htok]
      · simp [htok, hlen]

/-- C8: with selection enabled, `handleClick` in radio mode replaces
the selection with `[id]`; otherwise it appends `id` at the end when
absent and removes the first occurrence of `id` by positional splice,
preserving the order of the remaining ids, when present. -/
theorem handleClick_toggle (useRadioButtons : Bool)
    (selectedIds : List String) (id : String) :
    handleClick false useRadioButtons selectedIds id =
      some (if useRadioButtons then [id]
            else if id ∈ selectedIds then selectedIds.erase id
            else selectedIds ++ [id]) := by
  simp [handleClick, spliceToggle_eq]

/-- C10: `handleSelectAllClick` guards only on `disableSelection`: with
selection enabled and `checked = true` it hands the full list of
displayed row ids to `updateSelection`, whatever the value of the
`useRadioButtons` prop. -/
theorem handleSelectAllClick_ignores_radio (useRadioButtons : Bool)
    (rows : List Row) :
    handleSelectAllClick false useRadioButtons true rows
      = some (rows.map Row.id) := by
  simp [handleSelectAllClick]

/-- C6: starting from the constructor state, after any sequence of
completed operations (`goToPage` with any offset and any fetch outcome,
`changePageSize` with any size and any fetch outcome) the invariant
`0 ≤ currentPage ≤ maxPageIndex` holds and `tokenList[0]` is the empty
string. -/
theorem runOps_invariant (ops : List Op) :
    0 ≤ (runOps initialState ops).currentPage ∧
    (runOps initialState ops).currentPage
      ≤ (runOps initialState ops).maxPageIndex ∧
    (runOps initialState ops).tokenList.head? = some "" := by
  have h := runOps_preserves ops initialState (by simp [initialState])
    (by simp [initialState])
  exact ⟨Nat.zero_le _, h.1, h.2⟩

end CustomTable
